import Mathlib

/-
Verification development for the windmill debouncing engine and the
NativeTS isolate runtime.

The debouncing engine (`maybe_debounce`, `maybe_debounce_post_preprocessing`,
`maybe_apply_debouncing`) ships only its test suite in this tree
(backend/windmill-queue/tests/debounce_test.rs); the engine itself is
modelled from the specification (spec.md §4.1–§4.5), with the few points the
specification leaves open pinned to the behaviour the test suite asserts
(post-increment strict limit check, membership recorded on the reset path,
the record surviving a reset with debounced_times = 0).

The NativeTS runtime definitions are translated from
backend/windmill-runtime-nativets/src/lib.rs and src/dedicated.rs.
-/

namespace Windmill

/-- JSON values as used for job arguments.  Models `serde_json::Value`
(numbers restricted to integers, which is all the engine ever inspects). -/
inductive Json where
  | null : Json
  | bool : Bool → Json
  | num : Int → Json
  | str : String → Json
  | arr : List Json → Json
  | obj : List (String × Json) → Json

mutual

/-- JSON serialization, as `serde_json::to_string` produces it for the
values above (used by the key resolver's `$args[...]` interpolation). -/
def Json.stringify : Json → String
  | .null => "null"
  | .bool true => "true"
  | .bool false => "false"
  | .num n => toString n
  | .str s => "\"" ++ s ++ "\""
  | .arr xs => "[" ++ String.intercalate "," (Json.stringifyList xs) ++ "]"
  | .obj fs => "\x7b" ++ String.intercalate "," (Json.stringifyFields fs) ++ "\x7d"

def Json.stringifyList : List Json → List String
  | [] => []
  | x :: xs => Json.stringify x :: Json.stringifyList xs

def Json.stringifyFields : List (String × Json) → List String
  | [] => []
  | (k, v) :: fs => ("\"" ++ k ++ "\":" ++ Json.stringify v) :: Json.stringifyFields fs

end

/-- Argument maps: a job's `args` column, name to JSON value. -/
abbrev ArgMap := List (String × Json)

/-- Look up an argument by name (`HashMap::get`). -/
def lookupArg (name : String) (args : ArgMap) : Option Json :=
  match args with
  | [] => none
  | (k, v) :: rest => if k = name then some v else lookupArg name rest

-- ── Key Resolver ─────────────────────────────────────────────────────

/-- Consume an expected sequence of characters from the front of a list,
returning the remainder on success. -/
def dropPrefixChars : List Char → List Char → Option (List Char)
  | [], cs => some cs
  | _, [] => none
  | p :: ps, c :: cs => if c = p then dropPrefixChars ps cs else none

/-- Modelled from the spec: the Key Resolver's argument interpolation
(§4.1, §6).  Scans the template left to right; each occurrence of
`$args[<name>]` with `<name>` a non-empty run of characters other than
the closing bracket is replaced with the JSON-stringified value of the
arg (absent arg → empty string); unmatched tokens are left literal.
The fuel argument bounds the recursion by the template length. -/
def interpAux (args : ArgMap) : Nat → List Char → List Char
  | 0, cs => cs
  | _ + 1, [] => []
  | fuel + 1, c :: cs =>
    match dropPrefixChars (String.toList "$args[") (c :: cs) with
    | some body =>
      let name := body.takeWhile (fun ch => decide (ch ≠ ']'))
      let rest := body.dropWhile (fun ch => decide (ch ≠ ']'))
      match rest with
      | ']' :: tail =>
        if name.isEmpty then c :: interpAux args fuel cs
        else
          (match lookupArg (String.mk name) args with
           | some v => (Json.stringify v).toList
           | none => []) ++ interpAux args fuel tail
      | _ => c :: interpAux args fuel cs
    | none => c :: interpAux args fuel cs

/-- Modelled from the spec: render a debounce key template (§4.1). -/
def interpolateArgs (template : String) (args : ArgMap) : String :=
  String.mk (interpAux args (template.length + 1) template.toList)

/-- A resolved debounce key.  The engine stores keys as strings; this
inductive keeps the two provenances (rendered template vs. default key)
apart, which is how distinct resolved strings behave.  The default key
carries the workspace, the runnable path and the serialized job args
minus the accumulated ones: the repository's tests
(debounce_test.rs, args_to_accumulate tests) pin that two submissions
with equal workspace and path but different non-accumulated args do NOT
share a debounce key, and that differing accumulated args do. -/
inductive DebKey where
  | custom : String → DebKey
  | defaultKey : String → String → String → DebKey
  deriving DecidableEq

/-- Modelled from the spec: the Key Resolver (§4.1), absent-template case
refined by the tests as described on `DebKey`.  `accumulate` is
`debounce_args_to_accumulate` (empty when unset). -/
def resolveKey (template : Option String) (workspace_id runnable_path : String)
    (args : ArgMap) (accumulate : List String) : DebKey :=
  match template with
  | some t => .custom (interpolateArgs t args)
  | none =>
      .defaultKey workspace_id runnable_path
        (Json.stringify (.obj (args.filter (fun p => decide (p.1 ∉ accumulate)))))

-- ── Debounce Store and Engine (modelled from the spec) ───────────────

/-- Modelled from the spec: the `DebouncingSettings` record (§3). -/
structure DebouncingSettings where
  debounce_delay_s : Option Int := none
  debounce_key : Option String := none
  max_total_debounces_amount : Option Nat := none
  max_total_debouncing_time : Option Int := none
  debounce_args_to_accumulate : Option (List String) := none

/-- Modelled from the spec: one Debounce Store row (§3, §6: columns
`job_id, previous_job_id, first_started_at, debounce_batch,
debounced_times`).  Job ids are modelled as naturals, timestamps as
integer seconds. -/
structure DebRecord where
  job_id : Nat
  previous_job_id : Option Nat
  first_started_at : Int
  batch_id : Nat
  debounced_times : Nat

/-- Modelled from the spec: the persistent state the debounce engine
touches — the Debounce Store (one record per `(workspace, key)`), the
completed-job results, the Batch Tracker membership table (in insertion
order) and the batch-id sequence (a process-wide sequence, §9
"Batch-id generation"). -/
structure EngineState where
  record : String → DebKey → Option DebRecord
  completedResult : Nat → Option String
  memberships : List (Nat × Nat)
  next_batch_seq : Nat

/-- The initial state: empty store, no completed jobs, no memberships. -/
def emptyState : EngineState :=
  { record := fun _ _ => none
    completedResult := fun _ => none
    memberships := []
    next_batch_seq := 0 }

/-- Store update for one `(workspace, key)` row. -/
def updateRecord (f : String → DebKey → Option DebRecord) (w : String) (k : DebKey)
    (r : DebRecord) : String → DebKey → Option DebRecord :=
  fun w' k' => if w' = w ∧ k' = k then some r else f w' k'

/-- Modelled from the spec: complete a job with a synthetic success
result (§4.4.1 step 5).  A job already in a terminal state is left
alone (§4.4 failure semantics: the engine logs and proceeds). -/
def completeJob (st : EngineState) (j : Nat) (res : String) : EngineState :=
  if (st.completedResult j).isSome then st
  else { st with completedResult := fun j' => if j' = j then some res else st.completedResult j' }

/-- Modelled from the spec: `Batch Tracker.record(job_id, batch_id)`
(§4.3), idempotent on `job_id`. -/
def recordMembership (st : EngineState) (j : Nat) (b : Nat) : EngineState :=
  if st.memberships.any (fun p => p.1 = j) then st
  else { st with memberships := st.memberships ++ [(j, b)] }

/-- Modelled from the spec: the limit check (§4.4.1 step 4):
`debounced_times > max_total_debounces_amount` or
`now - first_started_at > max_total_debouncing_time`, evaluated on the
post-upsert record (the boundary tests
`test_post_preprocessing_max_count_exact_boundary` and
`test_post_preprocessing_max_count_reset_new_batch` pin the
post-increment strict comparison). -/
def limitsExceeded (s : DebouncingSettings) (r : DebRecord) (now : Int) : Bool :=
  (match s.max_total_debounces_amount with
   | some m => decide (r.debounced_times > m)
   | none => false) ||
  (match s.max_total_debouncing_time with
   | some t => decide (now - r.first_started_at > t)
   | none => false)

/-- The debounce key a submission resolves to under given settings
(§4.4.1 step 2): the `debounce_key` template when present, the default
key otherwise; `debounce_args_to_accumulate` is empty when unset. -/
def settingsKey (s : DebouncingSettings) (w path : String) (args : ArgMap) : DebKey :=
  resolveKey s.debounce_key w path args (s.debounce_args_to_accumulate.getD [])

/-- Modelled from the spec: §4.4.1 step 6, the scheduled-for update
`max(*scheduled_for, now + debounce_delay_s)` — the existing
scheduled time wins if later; with none set it becomes `now + delay`. -/
def schedFor (sched : Option Int) (now d : Int) : Int :=
  match sched with
  | none => now + d
  | some t => max t (now + d)

/-- Modelled from the spec: the shared core of the two debounce entry
points (§4.4.1 steps 1–9, §4.2 upsert/reset).  Returns the updated
state and the scheduled-for value the entry point reports (`none` on
the no-op and forced-flush paths).  Semantics shared with the test
suite: a fresh key inserts a record with `debounced_times = 0` and
records the opener's batch membership; an existing key increments
`debounced_times` and either (a) on a limit breach resets the record
(fresh batch id, `debounced_times = 0`, `first_started_at = now`)
WITHOUT completing the previous survivor, or (b) completes the
previous survivor with the synthetic result `Debounced by <new job>`;
membership is recorded on every path that touches the engine. -/
def debounceCore (s : DebouncingSettings) (w path : String) (jobId : Nat)
    (args : ArgMap) (sched : Option Int) (now : Int) (st : EngineState) :
    EngineState × Option Int :=
  match s.debounce_delay_s with
  | none => (st, none)
  | some d =>
    if d ≤ 0 then (st, none)
    else
      let key := settingsKey s w path args
      match st.record w key with
      | none =>
        let r : DebRecord :=
          { job_id := jobId, previous_job_id := none, first_started_at := now
            batch_id := st.next_batch_seq, debounced_times := 0 }
        let st1 := { st with record := updateRecord st.record w key r
                             next_batch_seq := st.next_batch_seq + 1 }
        (recordMembership st1 jobId r.batch_id, some (schedFor sched now d))
      | some old =>
        let r : DebRecord :=
          { old with job_id := jobId, previous_job_id := some old.job_id
                     debounced_times := old.debounced_times + 1 }
        if limitsExceeded s r now then
          let rr : DebRecord :=
            { job_id := jobId, previous_job_id := none, first_started_at := now
              batch_id := st.next_batch_seq, debounced_times := 0 }
          let st1 := { st with record := updateRecord st.record w key rr
                               next_batch_seq := st.next_batch_seq + 1 }
          (recordMembership st1 jobId rr.batch_id, none)
        else
          let st1 := { st with record := updateRecord st.record w key r }
          let st2 := completeJob st1 old.job_id ("Debounced by " ++ toString jobId)
          (recordMembership st2 jobId r.batch_id, some (schedFor sched now d))

/-- Modelled from the spec: submission-time debouncing (§4.4.1).  The
caller passes the current `*scheduled_for`; the function returns the
state and the new `*scheduled_for` (left unchanged on the no-op and
forced-flush paths, where the engine returns without touching it). -/
def maybe_debounce (s : DebouncingSettings) (sched : Option Int) (w path : String)
    (jobId : Nat) (args : ArgMap) (now : Int) (st : EngineState) :
    EngineState × Option Int :=
  match debounceCore s w path jobId args sched now st with
  | (st', some sf) => (st', some sf)
  | (st', none) => (st', sched)

/-- Modelled from the spec: post-preprocessing debouncing (§4.4.2) —
same semantics, owns its transaction, returns `Option<scheduled_for>`
computed from scratch (`none` on the no-op and forced-flush paths). -/
def maybe_debounce_post_preprocessing (s : DebouncingSettings) (w path : String)
    (jobId : Nat) (args : ArgMap) (now : Int) (st : EngineState) :
    EngineState × Option Int :=
  debounceCore s w path jobId args none now st

/-- Run a sequence of post-preprocessing submissions (job id, time)
with fixed settings, workspace, path and args, threading the state. -/
def runSeq (s : DebouncingSettings) (w path : String) (args : ArgMap)
    (js : List (Nat × Int)) (st : EngineState) : EngineState :=
  js.foldl (fun acc j =>
    (maybe_debounce_post_preprocessing s w path j.1 args j.2 acc).1) st

-- ── Arg Accumulator (modelled from the spec) ─────────────────────────

/-- Modelled from the spec: §4.5 steps 1–3 — gather the named arg from
every batch member in batch-insertion order, interpreting each as a
JSON array and skipping members where it is missing or not an array,
concatenating the results. -/
def collectAccumulated (name : String) (memberArgs : List ArgMap) : List Json :=
  memberArgs.foldl (fun acc m =>
    match lookupArg name m with
    | some (.arr xs) => acc ++ xs
    | _ => acc) []

/-- Replace the value bound to a name, keeping positions and every
other binding untouched. -/
def replaceArg : ArgMap → String → Json → ArgMap
  | [], _, _ => []
  | (k, u) :: rest, name, v =>
      if k = name then (k, v) :: replaceArg rest name v
      else (k, u) :: replaceArg rest name v

/-- Write a value under a name, replacing an existing binding in place
and appending when absent; all other bindings are untouched. -/
def setArg (args : ArgMap) (name : String) (v : Json) : ArgMap :=
  if args.any (fun p => p.1 = name) then replaceArg args name v
  else args ++ [(name, v)]

/-- Modelled from the spec: the Arg Accumulator `maybe_apply_debouncing`
(§4.5) — for each name in `debounce_args_to_accumulate`, merge the
batch members' arrays (in batch-insertion order) and write the merged
array back into the survivor's args under the same name; non-accumulated
args are left untouched. -/
def maybe_apply_debouncing (names : List String) (memberArgs : List ArgMap)
    (survivorArgs : ArgMap) : ArgMap :=
  names.foldl (fun sargs name =>
    setArg sargs name (.arr (collectAccumulated name memberArgs))) survivorArgs

-- ── NativeTS isolate runtime ─────────────────────────────────────────
-- Translated from backend/windmill-runtime-nativets/src/lib.rs and
-- src/dedicated.rs.  A `RawValue` is represented by its raw JSON text.

/-- `log.trim_end_matches("\n")` — strip all trailing newline characters
(lib.rs, the log-collector loop in `eval_fetch_timeout`). -/
def trimTrailingNewlines (s : String) : String :=
  String.mk ((s.data.reverse.dropWhile (fun c => c = '\n')).reverse)

/-- Unescape `\n` escape sequences back to newline characters. -/
def unescapeNewlines : List Char → List Char
  | [] => []
  | '\\' :: 'n' :: rest => '\n' :: unescapeNewlines rest
  | c :: rest => c :: unescapeNewlines rest

/-- Modelled from the spec: `extract_stream_from_logs`
(windmill-common, not in this tree; result-stream protocol of §6):
a line starting with the exact prefix `WM_STREAM: ` is one chunk whose
body is the remainder of the line with `\n` unescaped to a newline;
any other line is a user log. -/
def extract_stream_from_logs (line : String) : Option String :=
  match dropPrefixChars (String.toList "WM_STREAM: ") line.data with
  | some rest => some (String.mk (unescapeNewlines rest))
  | none => none

/-- The stream chunks a run's log lines carry, in emission order. -/
def streamChunks (logs : List String) : List String :=
  logs.filterMap (fun l => extract_stream_from_logs (trimTrailingNewlines l))

/-- State of the log-collector task spawned by `eval_fetch_timeout`
(lib.rs:604-633): the concatenated stream content, whether a first
chunk was seen (which fires the stream notifier), and the lines
forwarded to the user log. -/
structure StreamCollector where
  result_stream : String
  is_stream : Bool
  user_logs : List String

/-- One iteration of the collector loop (lib.rs:607-627). -/
def processLogLine (st : StreamCollector) (log : String) : StreamCollector :=
  match extract_stream_from_logs (trimTrailingNewlines log) with
  | some s =>
      { st with is_stream := true, result_stream := st.result_stream ++ s }
  | none => { st with user_logs := st.user_logs ++ [log] }

/-- The collector's final answer (lib.rs:628-632): the concatenated
stream content when non-empty, otherwise `none`. -/
def collectStream (logs : List String) : Option String :=
  let st := logs.foldl processLogLine ⟨"", false, []⟩
  if st.result_stream = "" then none else some st.result_stream

/-- The result/stream merge of `eval_fetch_timeout` (lib.rs:641-653):
with stream content present, a `null` final result is replaced by the
stream content and the stream flag is true either way; with no stream
content the final result is paired with `false`; an execution error
always propagates. -/
def mergeStreamResult (r : Except String String) (stream : Option String) :
    Except String (String × Bool) :=
  match stream with
  | some logs =>
    match r with
    | .ok raw => if raw = "null" then .ok (logs, true) else .ok (raw, true)
    | .error e => .error e
  | none => r.map (fun raw => (raw, false))

/-- The `tokio::select!` between `eval_fetch` and the memory-limit
channel (lib.rs:635-638): a memory-limit signal received while the
evaluation is pending aborts it with the fixed error message. -/
def evalSelect (memoryLimitHit : Bool) (execResult : Except String String) :
    Except String (Except String String) :=
  if memoryLimitHit then .error "Memory limit reached, killing isolate"
  else .ok execResult

/-- End-to-end outcome of `eval_fetch_timeout` (lib.rs:635-656) on a run
whose evaluation produced `execResult` and whose isolate emitted the
given log lines: the select against the memory-limit channel, then the
result/stream merge against the collector's output.  Returns
`(result, had_result_stream)` or the error. -/
def evalFetchOutcome (memoryLimitHit : Bool) (execResult : Except String String)
    (logs : List String) : Except String (String × Bool) :=
  match evalSelect memoryLimitHit execResult with
  | .ok r => mergeStreamResult r (collectStream logs)
  | .error e => .error e

/-- Isolate heap limits from `create_nativets_runtime` (lib.rs:404-406):
`CreateParams::default().heap_limits(0, 1024 * 1024 * 128)`. -/
def nativets_heap_limits : Nat × Nat := (0, 1024 * 1024 * 128)

/-- The near-heap-limit callback (lib.rs:424-432): sends one signal on
the memory-limit channel and returns double the current limit as the
new limit.  Returns (signals sent, new limit). -/
def near_heap_limit_callback (_x y : Nat) : List Unit × Nat :=
  ([()], y * 2)

/-- `args_to_positional` (dedicated.rs:41-47): reorder a parsed args
object into positional args matching `arg_names`, `none` for missing
names.  The JSON text has already been parsed into an `ArgMap`. -/
def args_to_positional (argsMap : ArgMap) (arg_names : List String) :
    List (Option Json) :=
  arg_names.map (fun name => lookupArg name argsMap)

/-- The values handed to the user's `main`, positionally: each
positional slot is serialized by `op_get_static_args` (lib.rs:335-345;
a missing slot serializes as JSON `null`) and mapped through
`JSON.parse` by the entry script (lib.rs:813-814) before the spread
call `main(...args)` — so at the value level a present name yields its
bound value and a missing name yields JSON `null`. -/
def positionalArgValues (argsMap : ArgMap) (arg_names : List String) :
    List Json :=
  (args_to_positional argsMap arg_names).map (fun o => o.getD Json.null)

-- ── Theorems: NativeTS runtime ───────────────────────────────────────

theorem join_cons_aux (l : List String) (a : String) :
    l.foldl (· ++ ·) a = a ++ l.foldl (· ++ ·) "" := by
  induction l generalizing a with
  | nil => simp [String.append_empty]
  | cons x xs ih =>
    simp only [List.foldl_cons]
    rw [ih (a ++ x), ih ("" ++ x), String.empty_append, String.append_assoc]

theorem join_cons (a : String) (l : List String) :
    String.join (a :: l) = a ++ String.join l := by
  simp only [String.join, List.foldl_cons]
  rw [join_cons_aux l ("" ++ a), String.empty_append]

/-- The collector's accumulated stream content is the concatenation of
the chunks extracted from the log lines. -/
theorem collector_result_stream (logs : List String) (st : StreamCollector) :
    (logs.foldl processLogLine st).result_stream =
      st.result_stream ++ String.join (streamChunks logs) := by
  induction logs generalizing st with
  | nil => simp [streamChunks, String.join, String.append_empty]
  | cons l ls ih =>
    simp only [List.foldl_cons, streamChunks, List.filterMap_cons]
    cases h : extract_stream_from_logs (trimTrailingNewlines l) with
    | none =>
      have : processLogLine st l = { st with user_logs := st.user_logs ++ [l] } := by
        simp [processLogLine, h]
      rw [this, ih]
      simp [streamChunks]
    | some s =>
      have : processLogLine st l =
          { st with is_stream := true, result_stream := st.result_stream ++ s } := by
        simp [processLogLine, h]
      rw [this, ih]
      simp [streamChunks, join_cons, String.append_assoc]

/-- `collectStream` returns the concatenated chunks exactly when that
concatenation is non-empty. -/
theorem collectStream_eq (logs : List String) :
    collectStream logs =
      if String.join (streamChunks logs) = "" then none
      else some (String.join (streamChunks logs)) := by
  simp only [collectStream]
  rw [collector_result_stream logs ⟨"", false, []⟩]
  simp [String.empty_append]

/-- Claim C6 (counterexample): a run whose final result is JSON `null`
and which emitted one `WM_STREAM` chunk (the empty chunk, from the log
line `WM_STREAM: ` alone) returns `("null", false)`: the stream flag is
derived from nonemptiness of the concatenated stream content
(`result_stream.is_empty()` in lib.rs:628-632), not from the number of
emitted chunks, so the claim as stated fails on this input. -/
theorem c6_stream_merge_counterexample :
    streamChunks ["WM_STREAM: "] ≠ [] ∧
      evalFetchOutcome false (.ok "null") ["WM_STREAM: "] = .ok ("null", false) :=
  ⟨by decide, rfl⟩

/-- Claim C6 (amended): for every execution by `eval_fetch_timeout`
whose final JS result is the JSON value `null` and whose emitted
`WM_STREAM` chunks have a non-empty concatenation, the returned result
equals that concatenation and `had_result_stream` is true. -/
theorem c6_null_result_replaced_by_stream (logs : List String) (r : String)
    (hr : r = "null") (hs : String.join (streamChunks logs) ≠ "") :
    evalFetchOutcome false (.ok r) logs =
      .ok (String.join (streamChunks logs), true) := by
  subst hr
  simp [evalFetchOutcome, evalSelect, mergeStreamResult, collectStream_eq, hs]

/-- Witness for the amended C6 at a concrete run. -/
theorem c6_null_result_replaced_by_stream_witness :
    String.join (streamChunks ["WM_STREAM: a"]) ≠ "" ∧
      evalFetchOutcome false (.ok "null") ["WM_STREAM: a"] =
        .ok (String.join (streamChunks ["WM_STREAM: a"]), true) :=
  ⟨by decide, c6_null_result_replaced_by_stream ["WM_STREAM: a"] "null" rfl (by decide)⟩

/-- Claim C10 (counterexample): a run that emitted one `WM_STREAM`
chunk (the empty chunk) with a non-null final result returns the final
result with `had_result_stream = false`, so the claim as stated fails:
the flag follows the nonemptiness of the concatenated stream content,
not the existence of a chunk. -/
theorem c10_stream_flag_counterexample :
    streamChunks ["WM_STREAM: "] ≠ [] ∧
      evalFetchOutcome false (.ok "\"x\"") ["WM_STREAM: "] = .ok ("\"x\"", false) :=
  ⟨by decide, rfl⟩

/-- Claim C10 (amended): for every execution by `eval_fetch_timeout`
whose emitted `WM_STREAM` chunks have a non-empty concatenation and
whose final JS result is a non-null JSON value, the returned
`had_result_stream` flag is true and the final result itself — not the
stream content — is returned as the result. -/
theorem c10_nonnull_result_keeps_result_sets_flag (logs : List String) (r : String)
    (hr : r ≠ "null") (hs : String.join (streamChunks logs) ≠ "") :
    evalFetchOutcome false (.ok r) logs = .ok (r, true) := by
  simp [evalFetchOutcome, evalSelect, mergeStreamResult, collectStream_eq, hs, hr]

/-- Witness for the amended C10 at a concrete run. -/
theorem c10_nonnull_result_keeps_result_sets_flag_witness :
    ("\"y\"" : String) ≠ "null" ∧ String.join (streamChunks ["WM_STREAM: b"]) ≠ "" ∧
      evalFetchOutcome false (.ok "\"y\"") ["WM_STREAM: b"] = .ok ("\"y\"", true) :=
  ⟨by decide, by decide,
    c10_nonnull_result_keeps_result_sets_flag ["WM_STREAM: b"] "\"y\"" (by decide) (by decide)⟩

/-- Claim C8: for every arg-name list given at spawn time and every
args object, the values handed to `main` are positional in exactly the
order of `arg_names`: the list has one value per name, and the i-th
value is the JSON value bound to the i-th name in the args object, with
JSON `null` substituted for every name missing from the object. -/
theorem c8_positional_args_order (arg_names : List String) (argsMap : ArgMap) :
    (positionalArgValues argsMap arg_names).length = arg_names.length ∧
    ∀ i : Nat, (positionalArgValues argsMap arg_names)[i]? =
      (arg_names[i]?).map (fun name => (lookupArg name argsMap).getD Json.null) := by
  constructor
  · simp [positionalArgValues, args_to_positional]
  · intro i
    simp only [positionalArgValues, args_to_positional, List.map_map, List.getElem?_map]
    rfl

/-- Claim C9: every isolate's heap is capped at 128 MiB by its create
parameters; the near-heap-limit callback sends exactly one signal on
the memory-limit channel and returns double the current limit as a
grace window; and a memory-limit signal received while `execute` is
pending aborts the execution with the fixed error message
`Memory limit reached, killing isolate`. -/
theorem c9_heap_limit_and_memory_abort (x y : Nat) (r : Except String String)
    (logs : List String) :
    nativets_heap_limits = (0, 128 * 1024 * 1024) ∧
    near_heap_limit_callback x y = ([()], 2 * y) ∧
    evalFetchOutcome true r logs = .error "Memory limit reached, killing isolate" := by
  refine ⟨rfl, ?_, ?_⟩
  · simp [near_heap_limit_callback, Nat.mul_comm]
  · simp [evalFetchOutcome, evalSelect]

-- ── Theorems: debounce engine ────────────────────────────────────────

theorem updateRecord_self (f : String → DebKey → Option DebRecord) (w : String)
    (k : DebKey) (r : DebRecord) : updateRecord f w k r w k = some r := by
  simp [updateRecord]

theorem updateRecord_other (f : String → DebKey → Option DebRecord) (w : String)
    (k : DebKey) (r : DebRecord) (w' : String) (k' : DebKey)
    (h : ¬ (w' = w ∧ k' = k)) : updateRecord f w k r w' k' = f w' k' := by
  simp [updateRecord, h]

/-- The successive results of debouncing a chain: every job but the
last is completed with the synthetic result naming the job that
replaced it (the survivor of the batch at that moment, §4.4.1 step 5),
and the last is not completed. -/
def debouncedChain (f : Nat → Option String) : List Nat → Prop
  | [] => True
  | [x] => f x = none
  | x :: y :: rest =>
      f x = some ("Debounced by " ++ toString y) ∧ debouncedChain f (y :: rest)

/-- A fresh key: the submission opens a batch (§4.2 upsert, insert
case; §4.4.1 steps 3, 6–8). -/
theorem ppStep_insert (s : DebouncingSettings) (d : Int) (w path : String)
    (j : Nat) (args : ArgMap) (now : Int) (st : EngineState)
    (hdelay : s.debounce_delay_s = some d) (hd : 0 < d)
    (hrec : st.record w (settingsKey s w path args) = none)
    (hmem : st.memberships.any (fun p => p.1 = j) = false) :
    maybe_debounce_post_preprocessing s w path j args now st =
      ({ record := updateRecord st.record w (settingsKey s w path args)
           { job_id := j, previous_job_id := none, first_started_at := now
             batch_id := st.next_batch_seq, debounced_times := 0 }
         completedResult := st.completedResult
         memberships := st.memberships ++ [(j, st.next_batch_seq)]
         next_batch_seq := st.next_batch_seq + 1 }, some (now + d)) := by
  have hd' : ¬ d ≤ 0 := not_le.mpr hd
  simp [maybe_debounce_post_preprocessing, debounceCore, hdelay, hd', hrec,
    recordMembership, hmem, schedFor]

/-- An existing key within limits: the submission replaces the survivor
and completes it (§4.2 upsert, replace case; §4.4.1 steps 3, 5–8). -/
theorem ppStep_normal (s : DebouncingSettings) (d : Int) (w path : String)
    (j : Nat) (args : ArgMap) (now : Int) (st : EngineState) (r : DebRecord)
    (hdelay : s.debounce_delay_s = some d) (hd : 0 < d)
    (hrec : st.record w (settingsKey s w path args) = some r)
    (hlim : limitsExceeded s
      { r with job_id := j, previous_job_id := some r.job_id
               debounced_times := r.debounced_times + 1 } now = false)
    (hsurv : st.completedResult r.job_id = none)
    (hmem : st.memberships.any (fun p => p.1 = j) = false) :
    maybe_debounce_post_preprocessing s w path j args now st =
      ({ record := updateRecord st.record w (settingsKey s w path args)
           { r with job_id := j, previous_job_id := some r.job_id
                    debounced_times := r.debounced_times + 1 }
         completedResult := fun x =>
           if x = r.job_id then some ("Debounced by " ++ toString j)
           else st.completedResult x
         memberships := st.memberships ++ [(j, r.batch_id)]
         next_batch_seq := st.next_batch_seq }, some (now + d)) := by
  have hd' : ¬ d ≤ 0 := not_le.mpr hd
  simp [maybe_debounce_post_preprocessing, debounceCore, hdelay, hd', hrec, hlim,
    completeJob, hsurv, recordMembership, hmem, schedFor]

/-- An existing key over a limit: forced flush — the record is reset
with a fresh batch id, the previous survivor is left alone, membership
is recorded under the new batch, and no delay is reported (§4.4.1
step 4, §4.2 reset). -/
theorem ppStep_reset (s : DebouncingSettings) (d : Int) (w path : String)
    (j : Nat) (args : ArgMap) (now : Int) (st : EngineState) (r : DebRecord)
    (hdelay : s.debounce_delay_s = some d) (hd : 0 < d)
    (hrec : st.record w (settingsKey s w path args) = some r)
    (hlim : limitsExceeded s
      { r with job_id := j, previous_job_id := some r.job_id
               debounced_times := r.debounced_times + 1 } now = true)
    (hmem : st.memberships.any (fun p => p.1 = j) = false) :
    maybe_debounce_post_preprocessing s w path j args now st =
      ({ record := updateRecord st.record w (settingsKey s w path args)
           { job_id := j, previous_job_id := none, first_started_at := now
             batch_id := st.next_batch_seq, debounced_times := 0 }
         completedResult := st.completedResult
         memberships := st.memberships ++ [(j, st.next_batch_seq)]
         next_batch_seq := st.next_batch_seq + 1 }, none) := by
  have hd' : ¬ d ≤ 0 := not_le.mpr hd
  simp [maybe_debounce_post_preprocessing, debounceCore, hdelay, hd', hrec, hlim,
    recordMembership, hmem]

/-- The master chain lemma: folding a sequence of same-key submissions
over a state whose record never crosses the count limit replaces the
survivor step by step.  The final record keeps the batch id and opening
time, its survivor is the last submission, and its `debounced_times`
grew by the number of submissions; every replaced survivor is completed
with the synthetic result naming its replacer; other jobs, the
batch-id sequence, and foreign state are untouched; memberships are
appended in submission order under the batch id. -/
theorem runSeq_chain (s : DebouncingSettings) (d : Int) (w path : String) (args : ArgMap)
    (hdelay : s.debounce_delay_s = some d) (hd : 0 < d)
    (htime : s.max_total_debouncing_time = none) :
    ∀ (js : List (Nat × Int)) (st : EngineState) (r : DebRecord),
    st.record w (settingsKey s w path args) = some r →
    (∀ M, s.max_total_debounces_amount = some M → r.debounced_times + js.length ≤ M) →
    st.completedResult r.job_id = none →
    (∀ p ∈ js, st.completedResult p.1 = none) →
    (∀ p ∈ js, st.memberships.any (fun q => q.1 = p.1) = false) →
    (js.map Prod.fst).Nodup →
    r.job_id ∉ js.map Prod.fst →
    (∃ r', (runSeq s w path args js st).record w (settingsKey s w path args) = some r' ∧
        r'.job_id = (js.map Prod.fst).getLastD r.job_id ∧
        r'.debounced_times = r.debounced_times + js.length ∧
        r'.batch_id = r.batch_id ∧
        r'.first_started_at = r.first_started_at) ∧
    debouncedChain (runSeq s w path args js st).completedResult
      (r.job_id :: js.map Prod.fst) ∧
    (∀ x, x ∉ r.job_id :: js.map Prod.fst →
        (runSeq s w path args js st).completedResult x = st.completedResult x) ∧
    (runSeq s w path args js st).memberships =
      st.memberships ++ (js.map Prod.fst).map (fun i => (i, r.batch_id)) ∧
    (runSeq s w path args js st).next_batch_seq = st.next_batch_seq := by
  intro js
  induction js with
  | nil =>
    intro st r hrec hcnt hsurv _ _ _ _
    refine ⟨⟨r, hrec, rfl, by simp, rfl, rfl⟩, ?_, fun x _ => rfl, by simp [runSeq], rfl⟩
    simpa [debouncedChain, runSeq] using hsurv
  | cons p rest ih =>
    intro st r hrec hcnt hsurv hfC hfM hnd hni
    obtain ⟨j, t⟩ := p
    simp only [List.map_cons, List.nodup_cons] at hnd hni ⊢
    have hjrest : j ∉ rest.map Prod.fst := hnd.1
    have hndrest : (rest.map Prod.fst).Nodup := hnd.2
    have hnij : r.job_id ≠ j := by
      intro h; exact hni (by simp [h])
    have hnirest : r.job_id ∉ rest.map Prod.fst := by
      intro h; exact hni (by simp [h])
    have hfCj : st.completedResult j = none := hfC (j, t) (by simp)
    have hfMj : st.memberships.any (fun q => q.1 = j) = false := hfM (j, t) (by simp)
    set r' : DebRecord :=
      { r with job_id := j, previous_job_id := some r.job_id
               debounced_times := r.debounced_times + 1 } with hr'
    have hlim : limitsExceeded s r' t = false := by
      simp only [limitsExceeded, htime, Bool.or_false]
      cases hM : s.max_total_debounces_amount with
      | none => rfl
      | some M =>
        have hb := hcnt M hM
        simp only [List.length_cons] at hb
        simp only [hr']
        simp only [decide_eq_false_iff_not, not_lt]
        omega
    have hstep := ppStep_normal s d w path j args t st r hdelay hd hrec hlim hsurv hfMj
    set st' : EngineState :=
      { record := updateRecord st.record w (settingsKey s w path args) r'
        completedResult := fun x =>
          if x = r.job_id then some ("Debounced by " ++ toString j)
          else st.completedResult x
        memberships := st.memberships ++ [(j, r.batch_id)]
        next_batch_seq := st.next_batch_seq } with hst'
    have hrun : runSeq s w path args ((j, t) :: rest) st = runSeq s w path args rest st' := by
      simp only [runSeq, List.foldl_cons, hstep, hst']
    have hrec' : st'.record w (settingsKey s w path args) = some r' :=
      updateRecord_self _ _ _ _
    have hcnt' : ∀ M, s.max_total_debounces_amount = some M →
        r'.debounced_times + rest.length ≤ M := by
      intro M hM
      have hb := hcnt M hM
      simp only [List.length_cons] at hb
      simp only [hr']
      omega
    have hsurv' : st'.completedResult r'.job_id = none := by
      simp only [hst', hr']
      rw [if_neg (Ne.symm hnij)]
      exact hfCj
    have hfC' : ∀ q ∈ rest, st'.completedResult q.1 = none := by
      intro q hq
      have hqne : q.1 ≠ r.job_id := by
        intro h
        exact hnirest (h ▸ List.mem_map_of_mem Prod.fst hq)
      simp only [hst']
      rw [if_neg hqne]
      exact hfC q (by simp [hq])
    have hfM' : ∀ q ∈ rest, st'.memberships.any (fun z => z.1 = q.1) = false := by
      intro q hq
      have hqj : q.1 ≠ j := by
        intro h
        exact hjrest (h ▸ List.mem_map_of_mem Prod.fst hq)
      simp only [hst', List.any_append, List.any_cons, List.any_nil]
      rw [hfM q (by simp [hq])]
      simp [Ne.symm hqj]
    have hmain := ih st' r' hrec' hcnt' hsurv' hfC' hfM' hndrest
      (by simp only [hr']; exact hjrest)
    obtain ⟨⟨r2, hrec2, hjob2, hdt2, hb2, hf2⟩, hchain, huntouched, hmem2, hseq2⟩ := hmain
    refine ⟨⟨r2, ?_, ?_, ?_, ?_, ?_⟩, ?_, ?_, ?_, ?_⟩
    · rw [hrun]; exact hrec2
    · rw [hjob2]
      try simp only [hr', List.getLastD_cons]
    · rw [hdt2]
      try simp only [hr', List.length_cons]
      try omega
    · rw [hb2]
      try simp only [hr']
    · rw [hf2]
      try simp only [hr']
    · rw [hrun]
      show debouncedChain (runSeq s w path args rest st').completedResult
        (r.job_id :: j :: rest.map Prod.fst)
      refine ⟨?_, hchain⟩
      have hru := huntouched r.job_id (by simp [hnij, hnirest, hr'])
      rw [hru]
      simp [hst']
    · intro x hx
      simp only [List.mem_cons, not_or] at hx
      rw [hrun]
      have hxr := huntouched x (by
        simp only [hr', List.mem_cons, not_or]
        exact ⟨hx.2.1, hx.2.2⟩)
      rw [hxr]
      simp [hst', hx.1]
    · rw [hrun, hmem2]
      simp only [hst', hr', List.map_cons, List.append_assoc, List.singleton_append]
    · rw [hrun, hseq2]
      try simp only [hst']

theorem getLastD_default_irrel (l : List Nat) (a b : Nat) (h : l ≠ []) :
    l.getLastD a = l.getLastD b := by
  cases l with
  | nil => exact absurd rfl h
  | cons x xs => rw [List.getLastD_cons, List.getLastD_cons]

theorem getLastD_mem (l : List Nat) (a : Nat) (h : l ≠ []) : l.getLastD a ∈ l := by
  induction l generalizing a with
  | nil => exact absurd rfl h
  | cons x xs ih =>
    cases xs with
    | nil => simp [List.getLastD_cons]
    | cons y ys =>
      rw [List.getLastD_cons]
      exact List.mem_cons_of_mem x (ih x (by simp))

/-- In a debounced chain over distinct job ids, the uncompleted job is
exactly the last of the chain. -/
theorem debouncedChain_none_iff (f : Nat → Option String) :
    ∀ (l : List Nat), l.Nodup → debouncedChain f l →
      ∀ x ∈ l, (f x = none ↔ x = l.getLastD 0) := by
  intro l
  induction l with
  | nil => intro _ _ x hx; simp at hx
  | cons a l2 ih =>
    intro hnd hch x hx
    cases l2 with
    | nil =>
      have hfa : f a = none := by simpa [debouncedChain] using hch
      simp only [List.mem_singleton] at hx
      subst hx
      simp [hfa, List.getLastD_cons]
    | cons b l3 =>
      obtain ⟨hfa, hch2⟩ := hch
      have hnd2 := List.nodup_cons.mp hnd
      have hlast_eq : (a :: b :: l3).getLastD 0 = (b :: l3).getLastD 0 := by
        rw [List.getLastD_cons]
        exact getLastD_default_irrel _ _ _ (by simp)
      rcases List.mem_cons.mp hx with hxa | hxbl
      · subst hxa
        rw [hlast_eq]
        constructor
        · intro hnone; rw [hfa] at hnone; cases hnone
        · intro heq
          exfalso
          exact hnd2.1 (heq ▸ getLastD_mem (b :: l3) 0 (by simp))
      · rw [hlast_eq]
        exact ih hnd2.2 hch2 x hxbl

/-- The last job of a debounced chain is not completed. -/
theorem debouncedChain_last_none (f : Nat → Option String) :
    ∀ (l : List Nat), l ≠ [] → debouncedChain f l → f (l.getLastD 0) = none := by
  intro l
  induction l with
  | nil => intro h; exact absurd rfl h
  | cons a l2 ih =>
    intro _ hch
    cases l2 with
    | nil => simpa [debouncedChain, List.getLastD_cons] using hch
    | cons b l3 =>
      obtain ⟨_, hch2⟩ := hch
      rw [List.getLastD_cons, getLastD_default_irrel _ _ 0 (by simp)]
      exact ih (by simp) hch2

/-- The state effect of `maybe_debounce` is that of the shared core. -/
theorem maybe_debounce_fst (s : DebouncingSettings) (sch : Option Int)
    (w path : String) (j : Nat) (args : ArgMap) (now : Int) (st : EngineState) :
    (maybe_debounce s sch w path j args now st).1 =
      (debounceCore s w path j args sch now st).1 := by
  unfold maybe_debounce
  rcases h : debounceCore s w path j args sch now st with ⟨st', sf⟩
  cases sf <;> simp

/-- The state effect of the shared core does not depend on the incoming
scheduled-for value (it only feeds the reported delay). -/
theorem debounceCore_fst_sched (s : DebouncingSettings) (w path : String) (j : Nat)
    (args : ArgMap) (sch₁ sch₂ : Option Int) (now : Int) (st : EngineState) :
    (debounceCore s w path j args sch₁ now st).1 =
      (debounceCore s w path j args sch₂ now st).1 := by
  rcases hdel : s.debounce_delay_s with _ | d
  · simp [debounceCore, hdel]
  · by_cases hd0 : d ≤ 0
    · simp [debounceCore, hdel, hd0]
    · rcases hrec : st.record w (settingsKey s w path args) with _ | old
      · simp [debounceCore, hdel, hd0, hrec]
      · by_cases hl : limitsExceeded s
            { old with job_id := j, previous_job_id := some old.job_id
                       debounced_times := old.debounced_times + 1 } now
        · simp [debounceCore, hdel, hd0, hrec, hl]
        · simp [debounceCore, hdel, hd0, hrec, hl]

/-- Claim C1: for a debounce key with positive delay and no limits
configured, after N sequential submissions (each through
`maybe_debounce_post_preprocessing`; `maybe_debounce` has the identical
state effect, last conjunct) exactly one job — the last submitted —
remains uncompleted in the queue; each of the other N−1 jobs is
completed with the success result `Debounced by <id>` naming the
submission that replaced it (the batch survivor at that moment, the
last of which is the final survivor); and the debounce record ends with
`debounced_times = N−1` and `job_id` equal to the last submission. -/
theorem c1_coalescing_chain (s : DebouncingSettings) (d : Int) (w path : String)
    (args : ArgMap)
    (hdelay : s.debounce_delay_s = some d) (hd : 0 < d)
    (hcount : s.max_total_debounces_amount = none)
    (htime : s.max_total_debouncing_time = none)
    (j0 : Nat) (t0 : Int) (js : List (Nat × Int))
    (hnodup : (j0 :: js.map Prod.fst).Nodup) :
    debouncedChain (runSeq s w path args ((j0, t0) :: js) emptyState).completedResult
        (j0 :: js.map Prod.fst) ∧
    (∀ x ∈ j0 :: js.map Prod.fst,
        ((runSeq s w path args ((j0, t0) :: js) emptyState).completedResult x = none ↔
          x = (j0 :: js.map Prod.fst).getLastD 0)) ∧
    (∃ r', (runSeq s w path args ((j0, t0) :: js) emptyState).record w
            (settingsKey s w path args) = some r' ∧
        r'.job_id = (j0 :: js.map Prod.fst).getLastD 0 ∧
        r'.debounced_times = js.length) ∧
    (∀ (sch : Option Int) (j : Nat) (t : Int) (st : EngineState),
        (maybe_debounce s sch w path j args t st).1 =
          (maybe_debounce_post_preprocessing s w path j args t st).1) := by
  have hnd := List.nodup_cons.mp hnodup
  have hins := ppStep_insert s d w path j0 args t0 emptyState hdelay hd rfl rfl
  set st1 : EngineState :=
    { record := updateRecord emptyState.record w (settingsKey s w path args)
        { job_id := j0, previous_job_id := none, first_started_at := t0
          batch_id := emptyState.next_batch_seq, debounced_times := 0 }
      completedResult := emptyState.completedResult
      memberships := emptyState.memberships ++ [(j0, emptyState.next_batch_seq)]
      next_batch_seq := emptyState.next_batch_seq + 1 } with hst1
  have hrun1 : runSeq s w path args ((j0, t0) :: js) emptyState =
      runSeq s w path args js st1 := by
    simp only [runSeq, List.foldl_cons, hins, hst1]
  set r0 : DebRecord :=
    { job_id := j0, previous_job_id := none, first_started_at := t0
      batch_id := emptyState.next_batch_seq, debounced_times := 0 } with hr0
  have hchain := runSeq_chain s d w path args hdelay hd htime js st1 r0
    (updateRecord_self _ _ _ _)
    (by intro M hM; rw [hcount] at hM; cases hM)
    rfl (fun p _ => rfl)
    (by
      intro p hp
      have hpj : p.1 ≠ j0 := by
        intro h
        exact hnd.1 (h ▸ List.mem_map_of_mem Prod.fst hp)
      simp [hst1, emptyState, (Ne.symm hpj : j0 ≠ p.1)])
    hnd.2
    (by simpa [hr0] using hnd.1)
  obtain ⟨⟨r', hrec', hjob', hdt', _, _⟩, hch, _, _, _⟩ := hchain
  rw [← hrun1] at hrec' hch
  refine ⟨?_, ?_, ⟨r', hrec', ?_, ?_⟩, ?_⟩
  · simpa [hr0] using hch
  · intro x hx
    exact debouncedChain_none_iff _ _ hnodup (by simpa [hr0] using hch) x hx
  · rw [hjob', List.getLastD_cons]
    try simp [hr0]
  · rw [hdt']
    try simp [hr0]
  · intro sch j t st
    rw [maybe_debounce_fst, maybe_debounce_post_preprocessing]
    exact debounceCore_fst_sched s w path j args sch none t st

/-- Witness for C1: three sequential submissions (jobs 1, 2, 3) on key
`k1` with delay 5 — jobs 1 and 2 are completed `Debounced by 2` /
`Debounced by 3`, job 3 alone remains queued, and the record shows
`debounced_times = 2` with survivor 3. -/
theorem c1_coalescing_chain_witness :
    ({ debounce_delay_s := some 5, debounce_key := some "k1" } :
        DebouncingSettings).debounce_delay_s = some 5 ∧
    (0 : Int) < 5 ∧
    ((1 : Nat) :: ([(2, 0), (3, 0)] : List (Nat × Int)).map Prod.fst).Nodup ∧
    (debouncedChain (runSeq { debounce_delay_s := some 5, debounce_key := some "k1" }
        "test-workspace" "f/test/script" [] ((1, 0) :: [(2, 0), (3, 0)])
        emptyState).completedResult
        (1 :: ([(2, 0), (3, 0)] : List (Nat × Int)).map Prod.fst) ∧
    (∀ x ∈ (1 : Nat) :: ([(2, 0), (3, 0)] : List (Nat × Int)).map Prod.fst,
        ((runSeq { debounce_delay_s := some 5, debounce_key := some "k1" }
          "test-workspace" "f/test/script" [] ((1, 0) :: [(2, 0), (3, 0)])
          emptyState).completedResult x = none ↔
          x = ((1 : Nat) :: ([(2, 0), (3, 0)] : List (Nat × Int)).map Prod.fst).getLastD 0)) ∧
    (∃ r', (runSeq { debounce_delay_s := some 5, debounce_key := some "k1" }
            "test-workspace" "f/test/script" [] ((1, 0) :: [(2, 0), (3, 0)])
            emptyState).record "test-workspace"
            (settingsKey { debounce_delay_s := some 5, debounce_key := some "k1" }
              "test-workspace" "f/test/script" []) = some r' ∧
        r'.job_id = ((1 : Nat) :: ([(2, 0), (3, 0)] : List (Nat × Int)).map Prod.fst).getLastD 0 ∧
        r'.debounced_times = ([(2, 0), (3, 0)] : List (Nat × Int)).length) ∧
    (∀ (sch : Option Int) (j : Nat) (t : Int) (st : EngineState),
        (maybe_debounce { debounce_delay_s := some 5, debounce_key := some "k1" } sch
          "test-workspace" "f/test/script" j [] t st).1 =
          (maybe_debounce_post_preprocessing
            { debounce_delay_s := some 5, debounce_key := some "k1" }
            "test-workspace" "f/test/script" j [] t st).1)) :=
  ⟨rfl, by decide, by decide,
    c1_coalescing_chain { debounce_delay_s := some 5, debounce_key := some "k1" } 5
      "test-workspace" "f/test/script" [] rfl (by decide) rfl rfl 1 0 [(2, 0), (3, 0)]
      (by decide)⟩

/-- The forced-flush trace: from a fresh key, an opener `j0`, then `M`
submissions that coalesce within batch 0, then one more submission
`jf` that crosses `max_total_debounces_amount = M` and forces a flush:
the record is reset to `(jf, batch 1, debounced_times 0)`, no delay is
reported, the previous survivor is left untouched, and `jf`'s
membership is recorded under the new batch. -/
theorem max_count_trace (s : DebouncingSettings) (d : Int) (M : Nat) (w path : String)
    (args : ArgMap)
    (hdelay : s.debounce_delay_s = some d) (hd : 0 < d)
    (hcount : s.max_total_debounces_amount = some M)
    (htime : s.max_total_debouncing_time = none)
    (j0 jf : Nat) (t0 tf : Int) (js : List (Nat × Int)) (hlen : js.length = M)
    (hnodup : (j0 :: (js.map Prod.fst ++ [jf])).Nodup) :
    debouncedChain (runSeq s w path args ((j0, t0) :: js) emptyState).completedResult
      (j0 :: js.map Prod.fst) ∧
    (runSeq s w path args ((j0, t0) :: js) emptyState).completedResult
      ((js.map Prod.fst).getLastD j0) = none ∧
    (∃ r', (runSeq s w path args ((j0, t0) :: js) emptyState).record w
          (settingsKey s w path args) = some r' ∧
        r'.job_id = (js.map Prod.fst).getLastD j0 ∧ r'.debounced_times = M ∧
        r'.batch_id = 0 ∧ r'.first_started_at = t0) ∧
    (runSeq s w path args ((j0, t0) :: js) emptyState).memberships =
      (j0, 0) :: (js.map Prod.fst).map (fun i => (i, 0)) ∧
    maybe_debounce_post_preprocessing s w path jf args tf
        (runSeq s w path args ((j0, t0) :: js) emptyState) =
      ({ record := updateRecord
           (runSeq s w path args ((j0, t0) :: js) emptyState).record w
           (settingsKey s w path args)
           { job_id := jf, previous_job_id := none, first_started_at := tf
             batch_id := 1, debounced_times := 0 }
         completedResult :=
           (runSeq s w path args ((j0, t0) :: js) emptyState).completedResult
         memberships := ((j0, 0) :: (js.map Prod.fst).map (fun i => (i, 0))) ++ [(jf, 1)]
         next_batch_seq := 2 }, none) := by
  have hnd1 := List.nodup_cons.mp hnodup
  have hj0ids : j0 ∉ js.map Prod.fst := fun h => hnd1.1 (List.mem_append_left _ h)
  have hj0jf : j0 ≠ jf := fun h => hnd1.1 (List.mem_append_right _ (by simp [h]))
  have hnd2 := List.nodup_append.mp hnd1.2
  have hidsnd : (js.map Prod.fst).Nodup := hnd2.1
  have hjfids : jf ∉ js.map Prod.fst := by
    intro h
    exact hnd2.2.2 h (by simp)
  have hins := ppStep_insert s d w path j0 args t0 emptyState hdelay hd rfl rfl
  set st1 : EngineState :=
    { record := updateRecord emptyState.record w (settingsKey s w path args)
        { job_id := j0, previous_job_id := none, first_started_at := t0
          batch_id := emptyState.next_batch_seq, debounced_times := 0 }
      completedResult := emptyState.completedResult
      memberships := emptyState.memberships ++ [(j0, emptyState.next_batch_seq)]
      next_batch_seq := emptyState.next_batch_seq + 1 } with hst1
  have hrun1 : runSeq s w path args ((j0, t0) :: js) emptyState =
      runSeq s w path args js st1 := by
    simp only [runSeq, List.foldl_cons, hins, hst1]
  set r0 : DebRecord :=
    { job_id := j0, previous_job_id := none, first_started_at := t0
      batch_id := emptyState.next_batch_seq, debounced_times := 0 } with hr0
  have hchain := runSeq_chain s d w path args hdelay hd htime js st1 r0
    (updateRecord_self _ _ _ _)
    (by
      intro M' hM'
      rw [hcount] at hM'
      cases hM'
      simp [hr0, hlen])
    rfl (fun p _ => rfl)
    (by
      intro p hp
      have hpj : p.1 ≠ j0 := by
        intro h
        exact hj0ids (h ▸ List.mem_map_of_mem Prod.fst hp)
      simp [hst1, emptyState, (Ne.symm hpj : j0 ≠ p.1)])
    hidsnd
    (by simpa [hr0] using hj0ids)
  obtain ⟨⟨r', hrec', hjob', hdt', hb', hf'⟩, hch, _, hmem', hseq'⟩ := hchain
  rw [← hrun1] at hrec' hch hmem' hseq'
  have hchain0 : debouncedChain
      (runSeq s w path args ((j0, t0) :: js) emptyState).completedResult
      (j0 :: js.map Prod.fst) := by simpa [hr0] using hch
  have hlast : (runSeq s w path args ((j0, t0) :: js) emptyState).completedResult
      ((js.map Prod.fst).getLastD j0) = none := by
    have := debouncedChain_last_none _ (j0 :: js.map Prod.fst) (by simp) hchain0
    rwa [List.getLastD_cons] at this
  have hjob0 : r'.job_id = (js.map Prod.fst).getLastD j0 := by
    rw [hjob']
  have hdt0 : r'.debounced_times = M := by
    rw [hdt']
    simp [hr0, hlen]
  have hb0 : r'.batch_id = 0 := by
    rw [hb']
    simp [hr0, emptyState]
  have hf0 : r'.first_started_at = t0 := by
    rw [hf']
    try simp [hr0]
  have hmem0 : (runSeq s w path args ((j0, t0) :: js) emptyState).memberships =
      (j0, 0) :: (js.map Prod.fst).map (fun i => (i, 0)) := by
    rw [hmem']
    simp [hst1, hr0, emptyState]
  have hseq0 : (runSeq s w path args ((j0, t0) :: js) emptyState).next_batch_seq = 1 := by
    rw [hseq']
    simp [hst1, emptyState]
  have hlim : limitsExceeded s
      { r' with job_id := jf, previous_job_id := some r'.job_id
                debounced_times := r'.debounced_times + 1 } tf = true := by
    simp only [limitsExceeded, hcount, Bool.or_eq_true, decide_eq_true_eq]
    left
    rw [hdt0]
    omega
  have hmemf : (runSeq s w path args ((j0, t0) :: js) emptyState).memberships.any
      (fun p => p.1 = jf) = false := by
    rw [hmem0]
    rw [List.any_eq_false]
    intro q hq
    simp only [List.mem_cons, List.mem_map] at hq
    rcases hq with hq0 | ⟨i, hi, hiq⟩
    · subst hq0
      simp [hj0jf]
    · obtain ⟨a, ha, hai⟩ := hi
      have hq1 : q.1 = i := by rw [← hiq]
      rw [hq1]
      simp only [decide_eq_true_eq]
      intro h
      apply hjfids
      rw [← h, ← hai]
      exact List.mem_map_of_mem Prod.fst ha
  have hreset := ppStep_reset s d w path jf args tf
    (runSeq s w path args ((j0, t0) :: js) emptyState) r' hdelay hd hrec' hlim hmemf
  rw [hseq0, hmem0] at hreset
  exact ⟨hchain0, hlast, ⟨r', hrec', hjob0, hdt0, hb0, hf0⟩, hmem0, hreset⟩

/-- Claim C2: with `max_total_debounces_amount = M`, a batch absorbs up
to M debounces — from a fresh key, the opener plus M further
submissions coalesce within batch 0 — and it is the (M+1)-th
submission after the opener that resets the batch: it opens a new batch
with the distinct batch id 1 (the old batch's id is 0) and
`debounced_times` reset to 0 and itself as survivor, it reports no
delay, and the previous survivor is NOT coalesced (it remains
uncompleted in the queue). -/
theorem c2_max_count_forced_flush (s : DebouncingSettings) (d : Int) (M : Nat)
    (w path : String) (args : ArgMap)
    (hdelay : s.debounce_delay_s = some d) (hd : 0 < d)
    (hcount : s.max_total_debounces_amount = some M)
    (htime : s.max_total_debouncing_time = none)
    (j0 jf : Nat) (t0 tf : Int) (js : List (Nat × Int)) (hlen : js.length = M)
    (hnodup : (j0 :: (js.map Prod.fst ++ [jf])).Nodup) :
    debouncedChain (runSeq s w path args ((j0, t0) :: js) emptyState).completedResult
      (j0 :: js.map Prod.fst) ∧
    (∃ r', (runSeq s w path args ((j0, t0) :: js) emptyState).record w
          (settingsKey s w path args) = some r' ∧
        r'.batch_id = 0 ∧ r'.debounced_times = M) ∧
    (maybe_debounce_post_preprocessing s w path jf args tf
        (runSeq s w path args ((j0, t0) :: js) emptyState)).2 = none ∧
    (maybe_debounce_post_preprocessing s w path jf args tf
        (runSeq s w path args ((j0, t0) :: js) emptyState)).1.record w
        (settingsKey s w path args) =
      some { job_id := jf, previous_job_id := none, first_started_at := tf
             batch_id := 1, debounced_times := 0 } ∧
    (maybe_debounce_post_preprocessing s w path jf args tf
        (runSeq s w path args ((j0, t0) :: js) emptyState)).1.completedResult
        ((js.map Prod.fst).getLastD j0) = none := by
  obtain ⟨hch, hlast, ⟨r', hrec', _, hdt', hb', _⟩, _, hreset⟩ :=
    max_count_trace s d M w path args hdelay hd hcount htime j0 jf t0 tf js hlen hnodup
  refine ⟨hch, ⟨r', hrec', hb', hdt'⟩, ?_, ?_, ?_⟩
  · rw [hreset]
  · rw [hreset]
    exact updateRecord_self _ _ _ _
  · rw [hreset]
    exact hlast

/-- Witness for C2 with `M = 2`: opener job 1, coalescing submissions
2 and 3 (two debounces, batch 0), then job 4 forcing the flush into
batch 1 with `debounced_times = 0`, job 3 left queued. -/
theorem c2_max_count_forced_flush_witness :
    ([((2 : Nat), (0 : Int)), (3, 0)] : List (Nat × Int)).length = 2 ∧
    ((1 : Nat) :: (([((2 : Nat), (0 : Int)), (3, 0)] : List (Nat × Int)).map Prod.fst
        ++ [4])).Nodup ∧
    (debouncedChain (runSeq
        { debounce_delay_s := some 5, debounce_key := some "k"
          max_total_debounces_amount := some 2 }
        "w" "p" [] ((1, 0) :: [(2, 0), (3, 0)]) emptyState).completedResult
      (1 :: ([((2 : Nat), (0 : Int)), (3, 0)] : List (Nat × Int)).map Prod.fst) ∧
    (∃ r', (runSeq
        { debounce_delay_s := some 5, debounce_key := some "k"
          max_total_debounces_amount := some 2 }
        "w" "p" [] ((1, 0) :: [(2, 0), (3, 0)]) emptyState).record "w"
          (settingsKey
            { debounce_delay_s := some 5, debounce_key := some "k"
              max_total_debounces_amount := some 2 } "w" "p" []) = some r' ∧
        r'.batch_id = 0 ∧ r'.debounced_times = 2) ∧
    (maybe_debounce_post_preprocessing
        { debounce_delay_s := some 5, debounce_key := some "k"
          max_total_debounces_amount := some 2 }
        "w" "p" 4 [] 0 (runSeq
          { debounce_delay_s := some 5, debounce_key := some "k"
            max_total_debounces_amount := some 2 }
          "w" "p" [] ((1, 0) :: [(2, 0), (3, 0)]) emptyState)).2 = none ∧
    (maybe_debounce_post_preprocessing
        { debounce_delay_s := some 5, debounce_key := some "k"
          max_total_debounces_amount := some 2 }
        "w" "p" 4 [] 0 (runSeq
          { debounce_delay_s := some 5, debounce_key := some "k"
            max_total_debounces_amount := some 2 }
          "w" "p" [] ((1, 0) :: [(2, 0), (3, 0)]) emptyState)).1.record "w"
        (settingsKey
          { debounce_delay_s := some 5, debounce_key := some "k"
            max_total_debounces_amount := some 2 } "w" "p" []) =
      some { job_id := 4, previous_job_id := none, first_started_at := 0
             batch_id := 1, debounced_times := 0 } ∧
    (maybe_debounce_post_preprocessing
        { debounce_delay_s := some 5, debounce_key := some "k"
          max_total_debounces_amount := some 2 }
        "w" "p" 4 [] 0 (runSeq
          { debounce_delay_s := some 5, debounce_key := some "k"
            max_total_debounces_amount := some 2 }
          "w" "p" [] ((1, 0) :: [(2, 0), (3, 0)]) emptyState)).1.completedResult
        ((([((2 : Nat), (0 : Int)), (3, 0)] : List (Nat × Int)).map Prod.fst).getLastD 1)
      = none) :=
  ⟨by decide, by decide,
    c2_max_count_forced_flush
      { debounce_delay_s := some 5, debounce_key := some "k"
        max_total_debounces_amount := some 2 } 5 2 "w" "p" [] rfl (by decide) rfl rfl
      1 4 0 0 [(2, 0), (3, 0)] (by decide) (by decide)⟩

/-- Claim C7: in the forced-flush trace, all jobs recorded as members of
the first batch (the opener and the M coalesced submissions) carry the
same batch id 0; the reset assigns a different batch id: the job that
triggers the reset is recorded under the new batch's id 1, distinct
from the id of the batch it closed, and under no other id. -/
theorem c7_batch_id_cohort (s : DebouncingSettings) (d : Int) (M : Nat)
    (w path : String) (args : ArgMap)
    (hdelay : s.debounce_delay_s = some d) (hd : 0 < d)
    (hcount : s.max_total_debounces_amount = some M)
    (htime : s.max_total_debouncing_time = none)
    (j0 jf : Nat) (t0 tf : Int) (js : List (Nat × Int)) (hlen : js.length = M)
    (hnodup : (j0 :: (js.map Prod.fst ++ [jf])).Nodup) :
    (maybe_debounce_post_preprocessing s w path jf args tf
        (runSeq s w path args ((j0, t0) :: js) emptyState)).1.memberships =
      ((j0, 0) :: (js.map Prod.fst).map (fun i => (i, 0))) ++ [(jf, 1)] ∧
    (∀ x ∈ j0 :: js.map Prod.fst, ∀ b,
        (x, b) ∈ (maybe_debounce_post_preprocessing s w path jf args tf
          (runSeq s w path args ((j0, t0) :: js) emptyState)).1.memberships → b = 0) ∧
    (∀ b, (jf, b) ∈ (maybe_debounce_post_preprocessing s w path jf args tf
        (runSeq s w path args ((j0, t0) :: js) emptyState)).1.memberships → b = 1) ∧
    (jf, 1) ∈ (maybe_debounce_post_preprocessing s w path jf args tf
        (runSeq s w path args ((j0, t0) :: js) emptyState)).1.memberships ∧
    (∀ x ∈ j0 :: js.map Prod.fst,
        (x, 0) ∈ (maybe_debounce_post_preprocessing s w path jf args tf
          (runSeq s w path args ((j0, t0) :: js) emptyState)).1.memberships) := by
  have hnd1 := List.nodup_cons.mp hnodup
  have hj0jf : j0 ≠ jf := fun h => hnd1.1 (List.mem_append_right _ (by simp [h]))
  have hnd2 := List.nodup_append.mp hnd1.2
  have hjfids : jf ∉ js.map Prod.fst := by
    intro h
    exact hnd2.2.2 h (by simp)
  obtain ⟨_, _, _, _, hreset⟩ :=
    max_count_trace s d M w path args hdelay hd hcount htime j0 jf t0 tf js hlen hnodup
  rw [hreset]
  refine ⟨rfl, ?_, ?_, ?_, ?_⟩
  · intro x hx b hb
    rcases List.mem_append.mp hb with hbc | hbf
    · rcases List.mem_cons.mp hbc with hb0 | hbm
      · exact congrArg Prod.snd hb0
      · obtain ⟨i, _, hieq⟩ := List.mem_map.mp hbm
        exact (congrArg Prod.snd hieq).symm
    · exfalso
      have hxeq : x = jf := congrArg Prod.fst (List.mem_singleton.mp hbf)
      rcases List.mem_cons.mp hx with hxj0 | hxids
      · exact hj0jf (hxj0 ▸ hxeq)
      · exact hjfids (hxeq ▸ hxids)
  · intro b hb
    rcases List.mem_append.mp hb with hbc | hbf
    · exfalso
      rcases List.mem_cons.mp hbc with hb0 | hbm
      · exact hj0jf (congrArg Prod.fst hb0).symm
      · obtain ⟨i, hi, hieq⟩ := List.mem_map.mp hbm
        apply hjfids
        have : i = jf := congrArg Prod.fst hieq
        exact this ▸ hi
    · exact congrArg Prod.snd (List.mem_singleton.mp hbf)
  · exact List.mem_append_right _ (by simp)
  · intro x hx
    rcases List.mem_cons.mp hx with hxj0 | hxids
    · exact List.mem_append_left _ (by simp [hxj0])
    · refine List.mem_append_left _ (List.mem_cons_of_mem _ ?_)
      exact List.mem_map_of_mem (fun i => (i, 0)) hxids

/-- Witness for C7 with `M = 2`: jobs 1, 2, 3 are recorded under batch
0 and the flush-triggering job 4 under batch 1. -/
theorem c7_batch_id_cohort_witness :
    ([((2 : Nat), (0 : Int)), (3, 0)] : List (Nat × Int)).length = 2 ∧
    ((1 : Nat) :: (([((2 : Nat), (0 : Int)), (3, 0)] : List (Nat × Int)).map Prod.fst
        ++ [4])).Nodup ∧
    (maybe_debounce_post_preprocessing
        { debounce_delay_s := some 5, debounce_key := some "k"
          max_total_debounces_amount := some 2 }
        "w" "p" 4 [] 0 (runSeq
          { debounce_delay_s := some 5, debounce_key := some "k"
            max_total_debounces_amount := some 2 }
          "w" "p" [] ((1, 0) :: [(2, 0), (3, 0)]) emptyState)).1.memberships =
      ((1, 0) :: (([((2 : Nat), (0 : Int)), (3, 0)] : List (Nat × Int)).map
          Prod.fst).map (fun i => (i, 0))) ++ [(4, 1)] :=
  ⟨by decide, by decide,
    (c7_batch_id_cohort
      { debounce_delay_s := some 5, debounce_key := some "k"
        max_total_debounces_amount := some 2 } 5 2 "w" "p" [] rfl (by decide) rfl rfl
      1 4 0 0 [(2, 0), (3, 0)] (by decide) (by decide)).1⟩

/-- Claim C4: at submission-time debouncing with a positive delay and no
limits configured, the engine sets `*scheduled_for` to
`max(*scheduled_for, now + debounce_delay_s)` — when no scheduled time
was set it becomes `now + delay` — and the resulting scheduled time is
never earlier than the caller's pre-existing value. -/
theorem c4_scheduled_for_monotone (s : DebouncingSettings) (d : Int)
    (hdelay : s.debounce_delay_s = some d) (hd : 0 < d)
    (hcount : s.max_total_debounces_amount = none)
    (htime : s.max_total_debouncing_time = none)
    (sched : Option Int) (w path : String) (j : Nat) (args : ArgMap)
    (now : Int) (st : EngineState) :
    (maybe_debounce s sched w path j args now st).2 =
      some (match sched with
            | none => now + d
            | some t => max t (now + d)) ∧
    ∀ t0, sched = some t0 →
      ∃ t', (maybe_debounce s sched w path j args now st).2 = some t' ∧ t0 ≤ t' := by
  have hd' : ¬ d ≤ 0 := not_le.mpr hd
  have hcore : (debounceCore s w path j args sched now st).2 =
      some (schedFor sched now d) := by
    rcases hrec : st.record w (settingsKey s w path args) with _ | old
    · simp [debounceCore, hdelay, hd', hrec]
    · have hlim : limitsExceeded s
          { old with job_id := j, previous_job_id := some old.job_id
                     debounced_times := old.debounced_times + 1 } now = false := by
        simp [limitsExceeded, hcount, htime]
      simp [debounceCore, hdelay, hd', hrec, hlim]
  have hmd : (maybe_debounce s sched w path j args now st).2 =
      some (schedFor sched now d) := by
    unfold maybe_debounce
    rcases hc : debounceCore s w path j args sched now st with ⟨st', sf⟩
    rw [hc] at hcore
    simp only at hcore
    subst hcore
    simp
  constructor
  · rw [hmd]
    rfl
  · intro t0 ht0
    refine ⟨schedFor sched now d, hmd, ?_⟩
    rw [ht0, schedFor]
    exact le_max_left t0 (now + d)

/-- Witness for C4: a pre-existing `scheduled_for` of 999 with delay 30
at `now = 0` stays 999 = max(999, 30); and is never moved earlier. -/
theorem c4_scheduled_for_monotone_witness :
    (0 : Int) < 30 ∧
    ((maybe_debounce { debounce_delay_s := some 30, debounce_key := some "k" }
        (some 999) "w" "p" 1 [] 0 emptyState).2 =
      some (match (some (999 : Int) : Option Int) with
            | none => (0 : Int) + 30
            | some t => max t ((0 : Int) + 30)) ∧
    ∀ t0, (some (999 : Int) : Option Int) = some t0 →
      ∃ t', (maybe_debounce { debounce_delay_s := some 30, debounce_key := some "k" }
          (some 999) "w" "p" 1 [] 0 emptyState).2 = some t' ∧ t0 ≤ t') :=
  ⟨by decide,
    c4_scheduled_for_monotone
      { debounce_delay_s := some 30, debounce_key := some "k" } 30 rfl (by decide)
      rfl rfl (some 999) "w" "p" 1 [] 0 emptyState⟩

/-- Claim C3 (counterexample): with the `debounce_key` setting absent
and `debounce_args_to_accumulate = ["items"]`, two submissions in the
same workspace on the same runnable path whose non-accumulated arg
`other` differs resolve to DIFFERENT keys, and the second does not
coalesce the first (job 1 is left uncompleted in the queue) — refuting
both the claimed default key `workspace_id + runnable_path` and the
claimed coalescing regardless of arg differences.  This matches the
repository's test
`test_post_preprocessing_args_to_accumulate_different_non_accumulated`. -/
theorem c3_default_key_counterexample :
    (resolveKey none "test-workspace" "f/test/flow"
        [("items", .arr [.str "a"]), ("other", .str "foo")] ["items"] ≠
      resolveKey none "test-workspace" "f/test/flow"
        [("items", .arr [.str "b"]), ("other", .str "bar")] ["items"]) ∧
    EngineState.completedResult
      (runSeq { debounce_delay_s := some 5
                debounce_args_to_accumulate := some ["items"] }
        "test-workspace" "f/test/flow"
        [("items", .arr [.str "b"]), ("other", .str "bar")] [(2, 0)]
        (maybe_debounce_post_preprocessing
          { debounce_delay_s := some 5
            debounce_args_to_accumulate := some ["items"] }
          "test-workspace" "f/test/flow" 1
          [("items", .arr [.str "a"]), ("other", .str "foo")] 0 emptyState).1)
      1 = none :=
  ⟨by decide, rfl⟩

/-- Claim C3 (amended): when the `debounce_key` setting is absent, the
resolved key combines the workspace id and the runnable path with the
job's args minus the accumulated ones; consequently two submissions in
the same workspace on the same runnable path share one debounce key
whenever their non-accumulated args agree, and then (with positive
delay and no limits) the second coalesces the first, which is completed
with `Debounced by <second job>` while the second stays queued. -/
theorem c3_default_key_filtered_args (s : DebouncingSettings) (d : Int)
    (hdelay : s.debounce_delay_s = some d) (hd : 0 < d)
    (hkey : s.debounce_key = none)
    (hcount : s.max_total_debounces_amount = none)
    (htime : s.max_total_debouncing_time = none)
    (w path : String) (a1 a2 : ArgMap)
    (hfilter : a1.filter
        (fun p => decide (p.1 ∉ s.debounce_args_to_accumulate.getD [])) =
      a2.filter (fun p => decide (p.1 ∉ s.debounce_args_to_accumulate.getD [])))
    (j1 j2 : Nat) (hne : j2 ≠ j1) (t1 t2 : Int) :
    settingsKey s w path a1 = settingsKey s w path a2 ∧
    EngineState.completedResult
      (maybe_debounce_post_preprocessing s w path j2 a2 t2
        (maybe_debounce_post_preprocessing s w path j1 a1 t1 emptyState).1).1
      j1 = some ("Debounced by " ++ toString j2) ∧
    EngineState.completedResult
      (maybe_debounce_post_preprocessing s w path j2 a2 t2
        (maybe_debounce_post_preprocessing s w path j1 a1 t1 emptyState).1).1
      j2 = none := by
  have hkeq : settingsKey s w path a1 = settingsKey s w path a2 := by
    simp only [settingsKey, resolveKey, hkey]
    rw [hfilter]
  have hins := ppStep_insert s d w path j1 a1 t1 emptyState hdelay hd rfl rfl
  set r1 : DebRecord :=
    { job_id := j1, previous_job_id := none, first_started_at := t1
      batch_id := emptyState.next_batch_seq, debounced_times := 0 } with hr1
  set st1 : EngineState :=
    { record := updateRecord emptyState.record w (settingsKey s w path a1) r1
      completedResult := emptyState.completedResult
      memberships := emptyState.memberships ++ [(j1, emptyState.next_batch_seq)]
      next_batch_seq := emptyState.next_batch_seq + 1 } with hst1
  have hst1eq : (maybe_debounce_post_preprocessing s w path j1 a1 t1 emptyState).1 = st1 := by
    rw [hins]
  have hrec2 : st1.record w (settingsKey s w path a2) = some r1 := by
    rw [← hkeq]
    exact updateRecord_self _ _ _ _
  have hlim : limitsExceeded s
      { r1 with job_id := j2, previous_job_id := some r1.job_id
                debounced_times := r1.debounced_times + 1 } t2 = false := by
    simp [limitsExceeded, hcount, htime]
  have hj12 : ¬ (j1 = j2) := fun h => hne h.symm
  have hmem2 : st1.memberships.any (fun p => p.1 = j2) = false := by
    simp [hst1, emptyState, hj12]
  have hstep := ppStep_normal s d w path j2 a2 t2 st1 r1 hdelay hd hrec2 hlim rfl hmem2
  refine ⟨hkeq, ?_, ?_⟩
  · rw [hst1eq, hstep]
    simp [hr1]
  · rw [hst1eq, hstep]
    simp [hr1, hst1, hne, emptyState]

/-- Witness for the amended C3: same workspace and path, different
accumulated arg `items`, equal non-accumulated arg `other` — one key,
job 1 coalesced by job 2. -/
theorem c3_default_key_filtered_args_witness :
    (0 : Int) < 5 ∧
    ([(("items" : String), Json.arr [.str "a"]), ("other", .str "x")] : ArgMap).filter
        (fun p => decide (p.1 ∉
          (({ debounce_delay_s := some 5, debounce_args_to_accumulate := some ["items"] } :
          DebouncingSettings).debounce_args_to_accumulate).getD [])) =
      ([(("items" : String), Json.arr [.str "b"]), ("other", .str "x")] : ArgMap).filter
        (fun p => decide (p.1 ∉
          (({ debounce_delay_s := some 5, debounce_args_to_accumulate := some ["items"] } :
          DebouncingSettings).debounce_args_to_accumulate).getD [])) ∧
    (settingsKey
        { debounce_delay_s := some 5, debounce_args_to_accumulate := some ["items"] }
        "test-workspace"
        "f/test/flow" [("items", .arr [.str "a"]), ("other", .str "x")] =
      settingsKey
        { debounce_delay_s := some 5, debounce_args_to_accumulate := some ["items"] }
        "test-workspace"
        "f/test/flow" [("items", .arr [.str "b"]), ("other", .str "x")] ∧
    EngineState.completedResult
      (maybe_debounce_post_preprocessing
        { debounce_delay_s := some 5, debounce_args_to_accumulate := some ["items"] }
        "test-workspace" "f/test/flow" 2
        [("items", .arr [.str "b"]), ("other", .str "x")] 0
        (maybe_debounce_post_preprocessing
          { debounce_delay_s := some 5, debounce_args_to_accumulate := some ["items"] }
          "test-workspace" "f/test/flow" 1
          [("items", .arr [.str "a"]), ("other", .str "x")] 0 emptyState).1).1
      1 = some ("Debounced by " ++ toString 2) ∧
    EngineState.completedResult
      (maybe_debounce_post_preprocessing
        { debounce_delay_s := some 5, debounce_args_to_accumulate := some ["items"] }
        "test-workspace" "f/test/flow" 2
        [("items", .arr [.str "b"]), ("other", .str "x")] 0
        (maybe_debounce_post_preprocessing
          { debounce_delay_s := some 5, debounce_args_to_accumulate := some ["items"] }
          "test-workspace" "f/test/flow" 1
          [("items", .arr [.str "a"]), ("other", .str "x")] 0 emptyState).1).1
      2 = none) :=
  ⟨by decide, rfl,
    c3_default_key_filtered_args
      { debounce_delay_s := some 5, debounce_args_to_accumulate := some ["items"] }
      5 rfl (by decide) rfl rfl rfl "test-workspace" "f/test/flow"
      [("items", .arr [.str "a"]), ("other", .str "x")]
      [("items", .arr [.str "b"]), ("other", .str "x")] rfl 1 2 (by decide) 0 0⟩

-- ── Theorems: Arg Accumulator ────────────────────────────────────────

theorem collectAccumulated_aux (name : String) :
    ∀ (ms : List ArgMap) (vs : List (List Json)),
    List.Forall₂ (fun m a => lookupArg name m = some (.arr a)) ms vs →
    ∀ acc : List Json,
      ms.foldl (fun acc' m =>
        match lookupArg name m with
        | some (.arr xs) => acc' ++ xs
        | _ => acc') acc = acc ++ vs.flatten := by
  intro ms vs hf
  induction hf with
  | nil => intro acc; simp
  | cons hma _ ih =>
    intro acc
    rename_i m a ms' vs' _
    simp only [List.foldl_cons, hma, List.flatten_cons]
    rw [ih (acc ++ a), List.append_assoc]

theorem collectAccumulated_eq (name : String) (ms : List ArgMap)
    (vs : List (List Json))
    (hf : List.Forall₂ (fun m a => lookupArg name m = some (.arr a)) ms vs) :
    collectAccumulated name ms = vs.flatten := by
  have := collectAccumulated_aux name ms vs hf []
  simpa [collectAccumulated] using this

theorem lookupArg_map_replace (name : String) (v : Json) :
    ∀ args : ArgMap,
      lookupArg name (replaceArg args name v) =
        (lookupArg name args).map (fun _ => v) := by
  intro args
  induction args with
  | nil => rfl
  | cons q rest ih =>
    obtain ⟨k, u⟩ := q
    by_cases hq : k = name
    · simp [replaceArg, lookupArg, hq]
    · simp [replaceArg, lookupArg, hq, ih]

theorem lookupArg_append_self (name : String) (v : Json) :
    ∀ args : ArgMap, lookupArg name args = none →
      lookupArg name (args ++ [(name, v)]) = some v := by
  intro args
  induction args with
  | nil => intro _; simp [lookupArg]
  | cons q rest ih =>
    obtain ⟨k, u⟩ := q
    intro hnone
    by_cases hq : k = name
    · simp [lookupArg, hq] at hnone
    · simp only [List.cons_append, lookupArg, hq, if_false] at hnone ⊢
      exact ih hnone

theorem lookupArg_none_of_any_false (name : String) :
    ∀ args : ArgMap, args.any (fun p => p.1 = name) = false →
      lookupArg name args = none := by
  intro args
  induction args with
  | nil => intro _; rfl
  | cons q rest ih =>
    obtain ⟨k, u⟩ := q
    intro hfalse
    simp only [List.any_cons, Bool.or_eq_false_iff] at hfalse
    have hk : ¬ k = name := by simpa using hfalse.1
    simp only [lookupArg, hk, if_false]
    exact ih hfalse.2

theorem lookupArg_isSome_of_any_true (name : String) :
    ∀ args : ArgMap, args.any (fun p => p.1 = name) = true →
      (lookupArg name args).isSome = true := by
  intro args
  induction args with
  | nil => intro h; cases h
  | cons q rest ih =>
    obtain ⟨k, u⟩ := q
    intro htrue
    by_cases hk : k = name
    · simp [lookupArg, hk]
    · simp only [List.any_cons, Bool.or_eq_true] at htrue
      rcases htrue with h1 | h2
      · exact absurd (by simpa using h1) hk
      · simp only [lookupArg, hk, if_false]
        exact ih h2

theorem lookupArg_setArg_self (name : String) (v : Json) :
    ∀ args : ArgMap, lookupArg name (setArg args name v) = some v := by
  intro args
  by_cases hany : args.any (fun p => p.1 = name)
  · simp only [setArg, hany, if_true]
    rw [lookupArg_map_replace]
    have hsome := lookupArg_isSome_of_any_true name args hany
    rcases hlk : lookupArg name args with _ | u
    · rw [hlk] at hsome; cases hsome
    · simp
  · have hfalse : args.any (fun p => p.1 = name) = false :=
      Bool.eq_false_iff.mpr hany
    simp only [setArg, hfalse, if_false]
    exact lookupArg_append_self name v args (lookupArg_none_of_any_false name args hfalse)

theorem lookupArg_setArg_other (name other : String) (v : Json)
    (hne : other ≠ name) :
    ∀ args : ArgMap, lookupArg other (setArg args name v) = lookupArg other args := by
  have haux1 : ∀ args : ArgMap,
      lookupArg other (replaceArg args name v) = lookupArg other args := by
    intro args
    induction args with
    | nil => rfl
    | cons q rest ih =>
      obtain ⟨k, u⟩ := q
      by_cases hq : k = name
      · simp [replaceArg, lookupArg, hq, (Ne.symm hne : ¬ name = other), ih]
      · by_cases hqo : k = other
        · simp [replaceArg, lookupArg, hq, hqo, (hne : ¬ other = name)]
        · simp [replaceArg, lookupArg, hq, hqo, ih]
  have haux2 : ∀ args : ArgMap,
      lookupArg other (args ++ [(name, v)]) = lookupArg other args := by
    intro args
    induction args with
    | nil => simp [lookupArg, Ne.symm hne]
    | cons q rest ih =>
      obtain ⟨k, u⟩ := q
      by_cases hqo : k = other
      · simp [lookupArg, hqo]
      · simp [lookupArg, hqo, ih]
  intro args
  by_cases hany : args.any (fun p => p.1 = name)
  · simp only [setArg, hany, if_true]
    exact haux1 args
  · have hfalse : args.any (fun p => p.1 = name) = false :=
      Bool.eq_false_iff.mpr hany
    simp only [setArg, hfalse, if_false]
    exact haux2 args

/-- Claim C5: with `debounce_args_to_accumulate = [X]`, when the
survivor begins executing its arg `X` equals the concatenation, in
batch-insertion order, of the JSON-array values of `X` from every batch
member, and every non-accumulated arg of the survivor is left
unchanged. -/
theorem c5_accumulator_merge (X : String) (ms : List ArgMap)
    (vs : List (List Json)) (survivorArgs : ArgMap)
    (hf : List.Forall₂ (fun m a => lookupArg X m = some (.arr a)) ms vs) :
    lookupArg X (maybe_apply_debouncing [X] ms survivorArgs) =
      some (.arr vs.flatten) ∧
    ∀ Y, Y ≠ X → lookupArg Y (maybe_apply_debouncing [X] ms survivorArgs) =
      lookupArg Y survivorArgs := by
  have hm : maybe_apply_debouncing [X] ms survivorArgs =
      setArg survivorArgs X (.arr (collectAccumulated X ms)) := rfl
  constructor
  · rw [hm, lookupArg_setArg_self, collectAccumulated_eq X ms vs hf]
  · intro Y hY
    rw [hm, lookupArg_setArg_other X Y _ hY]

/-- Witness for C5, the test's scenario: members with
`items = [1,2]`, `[3]`, `[4,5,6]` (all with `other = "x"`) merge into
`items = [1,2,3,4,5,6]` on the survivor, `other` untouched. -/
theorem c5_accumulator_merge_witness :
    List.Forall₂
      (fun (m : ArgMap) (a : List Json) => lookupArg "items" m = some (.arr a))
      [[("items", .arr [.num 1, .num 2]), ("other", .str "x")],
       [("items", .arr [.num 3]), ("other", .str "x")],
       [("items", .arr [.num 4, .num 5, .num 6]), ("other", .str "x")]]
      [[.num 1, .num 2], [.num 3], [.num 4, .num 5, .num 6]] ∧
    (lookupArg "items" (maybe_apply_debouncing ["items"]
        [[("items", .arr [.num 1, .num 2]), ("other", .str "x")],
         [("items", .arr [.num 3]), ("other", .str "x")],
         [("items", .arr [.num 4, .num 5, .num 6]), ("other", .str "x")]]
        [("items", .arr [.num 4, .num 5, .num 6]), ("other", .str "x")]) =
      some (.arr ([[Json.num 1, .num 2], [.num 3],
        [.num 4, .num 5, .num 6]] : List (List Json)).flatten) ∧
    ∀ Y, Y ≠ "items" → lookupArg Y (maybe_apply_debouncing ["items"]
        [[("items", .arr [.num 1, .num 2]), ("other", .str "x")],
         [("items", .arr [.num 3]), ("other", .str "x")],
         [("items", .arr [.num 4, .num 5, .num 6]), ("other", .str "x")]]
        [("items", .arr [.num 4, .num 5, .num 6]), ("other", .str "x")]) =
      lookupArg Y [("items", .arr [.num 4, .num 5, .num 6]), ("other", .str "x")]) :=
  ⟨.cons rfl (.cons rfl (.cons rfl .nil)),
    c5_accumulator_merge "items"
      [[("items", .arr [.num 1, .num 2]), ("other", .str "x")],
       [("items", .arr [.num 3]), ("other", .str "x")],
       [("items", .arr [.num 4, .num 5, .num 6]), ("other", .str "x")]]
      [[.num 1, .num 2], [.num 3], [.num 4, .num 5, .num 6]]
      [("items", .arr [.num 4, .num 5, .num 6]), ("other", .str "x")]
      (.cons rfl (.cons rfl (.cons rfl .nil)))⟩

end Windmill
